import Mathlib

set_option maxHeartbeats 1000000

/-
Verification development for the Service-Advisor-AI-Agent repository.

The Python source is shallowly embedded:
 - Python strings are Lean `String`s (operations restricted to ASCII where
   Python would be Unicode-aware; all concrete inputs used here are ASCII).
 - Python floats are modelled as `Rat` (exact rationals); the retrieval
   thresholds 0.65 and 0.50 become the rationals 13/20 and 1/2.
 - Fallible gateway calls (OpenAI / Pinecone via langchain) are modelled as
   `Except Unit _` values threaded in explicitly; an uncaught Python
   exception is `Except.error ()`.
 - Python dicts parsed from JSON are association lists (later duplicate keys
   win on lookup, as in `json.loads`).
-/

-- ───────────────────────── Python-style string helpers ─────────────────────

/-- Characters removed by Python `str.strip()` (ASCII whitespace). -/
def isPyWs (c : Char) : Bool :=
  c == ' ' || c == '\t' || c == '\n' || c == '\r' || c == '\x0b' || c == '\x0c'

def pyStripList (cs : List Char) : List Char :=
  ((cs.dropWhile isPyWs).reverse.dropWhile isPyWs).reverse

/-- Python `str.strip()`. -/
def pyStrip (s : String) : String := String.mk (pyStripList s.toList)

/-- Python `str.lower()` restricted to ASCII letters. -/
def asciiLower (s : String) : String := String.mk (s.toList.map Char.toLower)

/-- Python `sub in s` (substring containment). -/
def containsSub (s sub : String) : Bool :=
  s.toList.tails.any (fun t => sub.toList.isPrefixOf t)

/-- Python `s.split('\n')` (keeps empty pieces). -/
def splitNL (s : String) : List String := s.split (· == '\n')

def replGo (pat sub : List Char) : Nat → List Char → List Char
  | 0, cs => cs
  | _, [] => []
  | fuel + 1, c :: cs =>
    if pat.isPrefixOf (c :: cs) && !pat.isEmpty then
      sub ++ replGo pat sub fuel (cs.drop (pat.length - 1))
    else
      c :: replGo pat sub fuel cs

/-- Python `s.replace(pat, sub)` for a non-empty pattern: left-to-right,
non-overlapping replacement of every occurrence. -/
def pyReplaceAll (s pat sub : String) : String :=
  String.mk (replGo pat.toList sub.toList s.toList.length s.toList)

-- ───────────────────────── JSON values and json.loads ──────────────────────

/-- A parsed JSON value, as produced by Python `json.loads`.  (The int/float
distinction of Python is collapsed into `Rat`.) -/
inductive JsonVal where
  | null : JsonVal
  | bool : Bool → JsonVal
  | num : Rat → JsonVal
  | str : String → JsonVal
  | arr : List JsonVal → JsonVal
  | obj : List (String × JsonVal) → JsonVal

/-- Python truthiness of a JSON value (`bool(v)`). -/
def truthy : JsonVal → Bool
  | .null => false
  | .bool b => b
  | .num q => decide (q ≠ 0)
  | .str s => !s.isEmpty
  | .arr xs => !xs.isEmpty
  | .obj kvs => !kvs.isEmpty

/-- Lookup in a dict built from an association list: the LAST occurrence of a
key wins, exactly as repeated keys behave in `json.loads`. -/
def objGet (kvs : List (String × JsonVal)) (k : String) : Option JsonVal :=
  match kvs with
  | [] => none
  | (k', v) :: rest =>
    match objGet rest k with
    | some v' => some v'
    | none => if k' = k then some v else none

/-- JSON inter-token whitespace. -/
def isJsonWs (c : Char) : Bool :=
  c == ' ' || c == '\t' || c == '\n' || c == '\r'

def hexVal (c : Char) : Option Nat :=
  if '0' ≤ c ∧ c ≤ '9' then some (c.toNat - 48)
  else if 'a' ≤ c ∧ c ≤ 'f' then some (c.toNat - 87)
  else if 'A' ≤ c ∧ c ≤ 'F' then some (c.toNat - 70)
  else none

/-- Body of a JSON string literal after the opening quote: returns the decoded
characters and the remainder after the closing quote.  Strict mode as in
Python: raw control characters are rejected; `\uXXXX` escapes are decoded
(surrogate halves, which Lean `Char` cannot represent, are rejected — Python
would build a lone-surrogate str; no concrete input here uses them). -/
def pStrBody : Nat → List Char → Option (List Char × List Char)
  | 0, _ => none
  | _ + 1, [] => none
  | fuel + 1, c :: cs =>
    if c = '"' then some ([], cs)
    else if c = '\\' then
      match cs with
      | [] => none
      | e :: cs' =>
        let put (ch : Char) (rest : List Char) : Option (List Char × List Char) :=
          (pStrBody fuel rest).map (fun p => (ch :: p.1, p.2))
        if e = '"' then put '"' cs'
        else if e = '\\' then put '\\' cs'
        else if e = '/' then put '/' cs'
        else if e = 'b' then put '\x08' cs'
        else if e = 'f' then put '\x0c' cs'
        else if e = 'n' then put '\n' cs'
        else if e = 'r' then put '\r' cs'
        else if e = 't' then put '\t' cs'
        else if e = 'u' then
          match cs' with
          | h1 :: h2 :: h3 :: h4 :: cs'' =>
            match hexVal h1, hexVal h2, hexVal h3, hexVal h4 with
            | some a, some b, some c2, some d =>
              let code := ((a * 16 + b) * 16 + c2) * 16 + d
              if 0xd800 ≤ code ∧ code ≤ 0xdfff then none
              else put (Char.ofNat code) cs''
            | _, _, _, _ => none
          | _ => none
        else none
    else if c.toNat < 0x20 then none
    else (pStrBody fuel cs).map (fun p => (c :: p.1, p.2))

def spanDigits (cs : List Char) : List Char × List Char :=
  (cs.takeWhile Char.isDigit, cs.dropWhile Char.isDigit)

def digitsVal (ds : List Char) : Nat :=
  ds.foldl (fun a c => a * 10 + (c.toNat - 48)) 0

def finishNum (neg : Bool) (v : Rat) : Rat := if neg then -v else v

def pExpTail (neg : Bool) (base : Rat) (cs : List Char) :
    Option (Rat × List Char) :=
  let (eneg, cs1) :=
    match cs with
    | '+' :: r => (false, r)
    | '-' :: r => (true, r)
    | _ => (false, cs)
  match spanDigits cs1 with
  | ([], _) => none
  | (ds, r2) =>
    let e := digitsVal ds
    let v := if eneg then base / (10 : Rat) ^ e else base * (10 : Rat) ^ e
    some (finishNum neg v, r2)

def pNumExp (neg : Bool) (base : Rat) (cs : List Char) :
    Option (Rat × List Char) :=
  match cs with
  | 'e' :: r => pExpTail neg base r
  | 'E' :: r => pExpTail neg base r
  | _ => some (finishNum neg base, cs)

def pNumFrac (neg : Bool) (ip : Nat) (cs : List Char) :
    Option (Rat × List Char) :=
  match cs with
  | '.' :: r =>
    match spanDigits r with
    | ([], _) => none
    | (ds, r2) =>
      pNumExp neg ((ip : Rat) + (digitsVal ds : Rat) / (10 : Rat) ^ ds.length) r2
  | _ => pNumExp neg (ip : Rat) cs

/-- JSON number grammar: `-? (0 | [1-9][0-9]*) frac? exp?`. -/
def pNum (cs : List Char) : Option (Rat × List Char) :=
  let (neg, cs1) :=
    match cs with
    | '-' :: r => (true, r)
    | _ => (false, cs)
  match cs1 with
  | '0' :: r => pNumFrac neg 0 r
  | c :: _ =>
    if c.isDigit then
      match spanDigits cs1 with
      | (ds, r) => pNumFrac neg (digitsVal ds) r
    else none
  | [] => none

mutual

/-- One JSON value (leading whitespace allowed), with the unconsumed rest. -/
def pVal (fuel : Nat) (cs : List Char) : Option (JsonVal × List Char) :=
  match fuel with
  | 0 => none
  | f + 1 =>
    match cs.dropWhile isJsonWs with
    | '{' :: r =>
      match r.dropWhile isJsonWs with
      | '}' :: r2 => some (.obj [], r2)
      | _ => (pMembers f r).map (fun p => (.obj p.1, p.2))
    | '[' :: r =>
      match r.dropWhile isJsonWs with
      | ']' :: r2 => some (.arr [], r2)
      | _ => (pElems f r).map (fun p => (.arr p.1, p.2))
    | '"' :: r =>
      (pStrBody (r.length + 1) r).map (fun p => (.str (String.mk p.1), p.2))
    | 't' :: 'r' :: 'u' :: 'e' :: r => some (.bool true, r)
    | 'f' :: 'a' :: 'l' :: 's' :: 'e' :: r => some (.bool false, r)
    | 'n' :: 'u' :: 'l' :: 'l' :: r => some (.null, r)
    | other => (pNum other).map (fun p => (.num p.1, p.2))

/-- Members of a JSON object after the opening brace (at least one). -/
def pMembers (fuel : Nat) (cs : List Char) :
    Option (List (String × JsonVal) × List Char) :=
  match fuel with
  | 0 => none
  | f + 1 =>
    match cs.dropWhile isJsonWs with
    | '"' :: r =>
      match pStrBody (r.length + 1) r with
      | some (kcs, r2) =>
        match r2.dropWhile isJsonWs with
        | ':' :: r3 =>
          match pVal f r3 with
          | some (v, r4) =>
            match r4.dropWhile isJsonWs with
            | ',' :: r5 =>
              (pMembers f r5).map (fun p => ((String.mk kcs, v) :: p.1, p.2))
            | '}' :: r5 => some ([(String.mk kcs, v)], r5)
            | _ => none
          | none => none
        | _ => none
      | none => none
    | _ => none

/-- Elements of a JSON array after the opening bracket (at least one). -/
def pElems (fuel : Nat) (cs : List Char) :
    Option (List JsonVal × List Char) :=
  match fuel with
  | 0 => none
  | f + 1 =>
    match pVal f cs with
    | some (v, r) =>
      match r.dropWhile isJsonWs with
      | ',' :: r2 => (pElems f r2).map (fun p => (v :: p.1, p.2))
      | ']' :: r2 => some ([v], r2)
      | _ => none
    | none => none

end

/-- Python `json.loads`: a single JSON document, whitespace allowed on both
sides, nothing else trailing.  (`NaN`/`Infinity` extension literals are not
modelled.) -/
def jsonLoads (s : String) : Option JsonVal :=
  let cs := s.toList
  match pVal (2 * cs.length + 4) cs with
  | some (v, rest) => if (rest.dropWhile isJsonWs).isEmpty then some v else none
  | none => none

-- ───────────────────────── OrchestratorAgent (src/agents/orchestrator_agent.py)

/-- `VEHICLE_NAMESPACES` from `src/config.py`, as the ordered association list
Python iterates over. -/
def vehicleNamespaces : List (String × String) :=
  [("passport", "passport-2026"), ("civic", "civic-2025"),
   ("ridgeline", "ridgeline-2025")]

/-- A `ClassificationDecision` as produced by `OrchestratorAgent.classify`.
The `escalation` and `summary` slots are whatever JSON value the model
returned (`_validate` never normalises them), so they stay `JsonVal`. -/
structure Decision where
  intent : String
  vehicle : Option String
  escalation : JsonVal
  summary : JsonVal

/-- `OrchestratorAgent._detect_vehicle_keyword`: first vehicle model name that
occurs as a substring of the lowercased text, mapped to its namespace. -/
def detectVehicleKeyword (userLower : String) : Option String :=
  match vehicleNamespaces.find? (fun p => containsSub userLower p.1) with
  | some p => some p.2
  | none => none

def bookingKeywordsFast : List String :=
  ["book appointment", "schedule service", "make an appointment",
   "schedule appointment", "book service", "need an appointment"]

def greetingsList : List String :=
  ["hello", "hi", "hey", "thanks", "thank you", "good morning",
   "good afternoon"]

def questionWords : List String :=
  ["how", "what", "where", "why", "when", "does", "can", "is the"]

/-- `OrchestratorAgent._fast_classify`: keyword classification, `none` when
unsure (which triggers the model path). -/
def fastClassify (userText : String) : Option Decision :=
  let userLower := asciiLower (pyStrip userText)
  match (vehicleNamespaces.find? (fun p => p.1 == userLower)) with
  | some p =>
    some ⟨"vehicle_select", some p.2, .bool false, .str ("Selected " ++ userLower)⟩
  | none =>
    if bookingKeywordsFast.any (fun kw => containsSub userLower kw) then
      some ⟨"booking", detectVehicleKeyword userLower, .bool false,
            .str "Wants to book appointment"⟩
    else if greetingsList.any (fun g => g == userLower) then
      some ⟨"greeting", none, .bool false, .str "Greeting"⟩
    else
      match detectVehicleKeyword userLower with
      | some v =>
        if containsSub userText "?"
            || questionWords.any (fun w => containsSub userLower w) then
          some ⟨"tech", some v, .bool false, .str "Technical question"⟩
        else none
      | none => none

def fallbackBookingKeywords : List String :=
  ["book", "schedule", "appointment", "oil change", "maintenance",
   "bring my car"]

/-- `OrchestratorAgent._fallback`: keyword-only classification used when the
fast path was unsure and the model path failed.  Note: no `strip()` here. -/
def fallbackClassify (userText : String) : Decision :=
  let userLower := asciiLower userText
  let vehicle := detectVehicleKeyword userLower
  if fallbackBookingKeywords.any (fun kw => containsSub userLower kw) then
    ⟨"booking", vehicle, .bool false, .str "Booking (fallback)"⟩
  else
    ⟨"tech", vehicle, .bool false, .str "General question (fallback)"⟩

def validIntents : List String :=
  ["tech", "booking", "escalation", "greeting", "vehicle_select"]

/-- JSON values on which a Python `v in set_of_strings` membership test would
raise `TypeError: unhashable type` (lists and dicts). -/
def unhashable : JsonVal → Bool
  | .arr _ => true
  | .obj _ => true
  | _ => false

/-- `OrchestratorAgent._validate` applied to the dict parsed from the model's
JSON.  `none` models the `TypeError` a membership test on an unhashable value
raises (caught by `classify`'s generic handler, which then falls back).
Mirrors the source line by line: `setdefault` fills missing keys, unknown
intents become "tech", unknown vehicles become `None`, and
`result["escalation"] is True` forces the intent to "escalation" after the
intent check. -/
def validateObj (kvs : List (String × JsonVal)) : Option Decision :=
  let i0 := (objGet kvs "intent").getD (.str "tech")
  let v0 := (objGet kvs "vehicle").getD .null
  let e0 := (objGet kvs "escalation").getD (.bool false)
  let s0 := (objGet kvs "summary").getD (.str "")
  if unhashable i0 || unhashable v0 then none
  else
    let i1 :=
      match i0 with
      | .str s => if s ∈ validIntents then s else "tech"
      | _ => "tech"
    let v1 :=
      match v0 with
      | .str s => if s ∈ (vehicleNamespaces.map Prod.snd) then some s else none
      | _ => none
    let i2 :=
      match e0 with
      | .bool true => "escalation"
      | _ => i1
    some ⟨i2, v1, e0, s0⟩

/-- The slow path of `classify` on a successful model call: strip markdown
backticks, `json.loads`, `_validate`.  A parse failure, a non-dict JSON
value (whose `setdefault` would raise `AttributeError`), or the `TypeError`
inside `_validate` all land in the generic handler, which falls back. -/
def validatedOr (userText : String) (kvs : List (String × JsonVal)) : Decision :=
  match validateObj kvs with
  | some d => d
  | none => fallbackClassify userText

def slowClassify (userText raw : String) : Decision :=
  let cleaned := pyStrip (pyReplaceAll (pyReplaceAll (pyStrip raw) "```json" "") "```" "")
  match jsonLoads cleaned with
  | some (.obj kvs) => validatedOr userText kvs
  | _ => fallbackClassify userText

/-- `OrchestratorAgent.classify`.  `slowRaw` is the outcome of the model call
of the slow path (`Except.error ()` for a raised gateway exception, which
also falls back to the keyword classifier). -/
def classify (userText : String) (slowRaw : Except Unit String) : Decision :=
  match fastClassify userText with
  | some d => d
  | none =>
    match slowRaw with
    | .error _ => fallbackClassify userText
    | .ok raw => slowClassify userText raw

-- Phone extraction (`OrchestratorAgent.extract_phone`).

/-- Matcher for the raw regex `\(\d{3}\)\s*\d{3}[-\s]?\d{4}` anchored at the
current position; returns the matched characters.  The whitespace runs are
forced (whitespace and digits are disjoint), so greedy matching is
deterministic. -/
def matchP1At (cs : List Char) : Option (List Char) :=
  match cs with
  | '(' :: a :: b :: c :: ')' :: rest =>
    if a.isDigit && b.isDigit && c.isDigit then
      let ws := rest.takeWhile isPyWs
      match rest.dropWhile isPyWs with
      | d1 :: d2 :: d3 :: rest2 =>
        if d1.isDigit && d2.isDigit && d3.isDigit then
          match rest2 with
          | x :: e1 :: e2 :: e3 :: e4 :: _ =>
            if (x == '-' || isPyWs x)
                && e1.isDigit && e2.isDigit && e3.isDigit && e4.isDigit then
              some ([ '(', a, b, c, ')'] ++ ws ++ [d1, d2, d3, x, e1, e2, e3, e4])
            else
              match rest2 with
              | f1 :: f2 :: f3 :: f4 :: _ =>
                if f1.isDigit && f2.isDigit && f3.isDigit && f4.isDigit then
                  some ([ '(', a, b, c, ')'] ++ ws ++ [d1, d2, d3, f1, f2, f3, f4])
                else none
              | _ => none
          | f1 :: f2 :: f3 :: f4 :: _ =>
            if f1.isDigit && f2.isDigit && f3.isDigit && f4.isDigit then
              some ([ '(', a, b, c, ')'] ++ ws ++ [d1, d2, d3, f1, f2, f3, f4])
            else none
          | _ => none
        else none
      | _ => none
    else none
  | _ => none

/-- Matcher for `\d{3}[-.\s]\d{3}[-.\s]\d{4}` anchored at the position. -/
def matchP2At (cs : List Char) : Option (List Char) :=
  match cs with
  | a :: b :: c :: s1 :: d :: e :: f :: s2 :: g :: h :: i :: j :: _ =>
    if a.isDigit && b.isDigit && c.isDigit
        && (s1 == '-' || s1 == '.' || isPyWs s1)
        && d.isDigit && e.isDigit && f.isDigit
        && (s2 == '-' || s2 == '.' || isPyWs s2)
        && g.isDigit && h.isDigit && i.isDigit && j.isDigit then
      some [a, b, c, s1, d, e, f, s2, g, h, i, j]
    else none
  | _ => none

/-- ASCII word character for the regex `\b` boundary. -/
def isWordChar (c : Char) : Bool :=
  c.isAlpha || c.isDigit || c == '_'

/-- Matcher for `\b\d{10}\b` anchored at the position, given the previous
character (if any). -/
def matchP3At (prev : Option Char) (cs : List Char) : Option (List Char) :=
  match cs with
  | a :: b :: c :: d :: e :: f :: g :: h :: i :: j :: rest =>
    let okPrev := match prev with | none => true | some p => !isWordChar p
    let okNext := match rest with | [] => true | n :: _ => !isWordChar n
    if okPrev && a.isDigit && b.isDigit && c.isDigit && d.isDigit && e.isDigit
        && f.isDigit && g.isDigit && h.isDigit && i.isDigit && j.isDigit
        && okNext then
      some [a, b, c, d, e, f, g, h, i, j]
    else none
  | _ => none

/-- Python `re.search`: try the anchored matcher at every position, leftmost
first, tracking the previous character for `\b`. -/
def reSearch (pat : Option Char → List Char → Option (List Char)) :
    Option Char → List Char → Option (List Char)
  | prev, [] => pat prev []
  | prev, c :: cs =>
    match pat prev (c :: cs) with
    | some m => some m
    | none => reSearch pat (some c) cs

/-- One pattern of `extract_phone`: search, keep the digits of the match, and
succeed only when exactly 10 digits remain (`if len(digits) == 10`). -/
def tryPhonePattern (pat : Option Char → List Char → Option (List Char))
    (text : String) : Option (List Char) :=
  match reSearch pat none text.toList with
  | some m =>
    let ds := m.filter Char.isDigit
    if ds.length = 10 then some ds else none
  | none => none

/-- The regex phase of `extract_phone`: the three US phone patterns in source
order; the first one that yields a 10-digit match wins. -/
def phoneRegexPhase (text : String) : Option (List Char) :=
  match tryPhonePattern (fun _ => matchP1At) text with
  | some ds => some ds
  | none =>
    match tryPhonePattern (fun _ => matchP2At) text with
    | some ds => some ds
    | none => tryPhonePattern matchP3At text

/-- Normalisation `f"({digits[:3]}) {digits[3:6]}-{digits[6:]}"`. -/
def formatPhone (ds : List Char) : String :=
  String.mk (['('] ++ ds.take 3 ++ [')', ' '] ++ (ds.drop 3).take 3
    ++ ['-'] ++ ds.drop 6)

/-- `OrchestratorAgent.extract_phone`: regex-first, then the constrained model
call (`llm` is its outcome; `Except.error ()` for a raised exception, which
the source converts to `None`).  The model branch returns the stripped model
text unless it contains `NO_PHONE`. -/
def extractPhone (text : String) (llm : Except Unit String) : Option String :=
  match phoneRegexPhase text with
  | some ds => some (formatPhone ds)
  | none =>
    match llm with
    | .error _ => none
    | .ok r =>
      let result := pyStrip r
      if containsSub result "NO_PHONE" then none else some result

/-- Shape predicate for a normalised `(XXX) XXX-XXXX` string (used to state
what the spec promises about `extract_phone` results). -/
def isPhoneShape (s : String) : Bool :=
  match s.toList with
  | ['(', a, b, c, ')', ' ', d, e, f, '-', g, h, i, j] =>
    a.isDigit && b.isDigit && c.isDigit && d.isDigit && e.isDigit && f.isDigit
      && g.isDigit && h.isDigit && i.isDigit && j.isDigit
  | _ => false

-- ───────────────────────── BookingAgent (src/agents/booking_agent.py) ───────

/-- The six required fields of the appointment dict (the `BookingRecord` of
the spec).  A value of `none` is an absent key; a stored JSON value is kept
as-is.  The dict also carries a bounded `messages` transcript, which is not
one of the six booking fields and is not modelled here. -/
structure Booking where
  name : Option JsonVal
  phone : Option JsonVal
  vehicle : Option JsonVal
  service_type : Option JsonVal
  preferred_date : Option JsonVal
  preferred_time : Option JsonVal

/-- The empty record a fresh booking conversation starts from. -/
def emptyBooking : Booking := ⟨none, none, none, none, none, none⟩

/-- Enumeration of the six required fields, for stating per-field facts. -/
inductive BField where
  | name | phone | vehicle | service_type | preferred_date | preferred_time
deriving DecidableEq

def keyOf : BField → String
  | .name => "name"
  | .phone => "phone"
  | .vehicle => "vehicle"
  | .service_type => "service_type"
  | .preferred_date => "preferred_date"
  | .preferred_time => "preferred_time"

def bget (b : Booking) : BField → Option JsonVal
  | .name => b.name
  | .phone => b.phone
  | .vehicle => b.vehicle
  | .service_type => b.service_type
  | .preferred_date => b.preferred_date
  | .preferred_time => b.preferred_time

/-- The literal string placeholder for "unknown". -/
def isNullLiteral : JsonVal → Bool
  | .str s => s == "null"
  | _ => false

/-- Per-field merge step of `BookingAgent.run`:
`if extracted.get(key) and extracted[key] != "null": appointment[key] = ...`.
The current value survives unless the new value is truthy and not the literal
string "null". -/
def keepField (cur newv : Option JsonVal) : Option JsonVal :=
  match newv with
  | some v => if truthy v && !isNullLiteral v then some v else cur
  | none => cur

/-- The field-update loop of `BookingAgent.run` applied to the parsed
extraction dict. -/
def applyExtract (b : Booking) (kvs : List (String × JsonVal)) : Booking :=
  { name := keepField b.name (objGet kvs "name")
    phone := keepField b.phone (objGet kvs "phone")
    vehicle := keepField b.vehicle (objGet kvs "vehicle")
    service_type := keepField b.service_type (objGet kvs "service_type")
    preferred_date := keepField b.preferred_date (objGet kvs "preferred_date")
    preferred_time := keepField b.preferred_time (objGet kvs "preferred_time") }

-- The `_parse_response` regexes.

def bkOpenTag : List Char := "[BOOKING_DATA]".toList
def bkCloseTag : List Char := "[/BOOKING_DATA]".toList

/-- Lazy scan for the group of `\{.*?\}` followed by `\s*\[/BOOKING_DATA\]`:
the first closing brace whose remainder (after whitespace) starts the closing
tag ends the group; any other character, brace or not, is swallowed by the
lazy `.*?`. -/
def lazyCloseScan (acc : List Char) : List Char → Option (List Char)
  | [] => none
  | c :: rest =>
    if c == '}' && bkCloseTag.isPrefixOf (rest.dropWhile isPyWs) then
      some (acc ++ [c])
    else lazyCloseScan (acc ++ [c]) rest

/-- Anchored matcher for `\[BOOKING_DATA\]\s*(\{.*?\})\s*\[/BOOKING_DATA\]`
(with `re.DOTALL`); returns the parenthesised group. -/
def bookingBlockAt (cs : List Char) : Option (List Char) :=
  if bkOpenTag.isPrefixOf cs then
    match (cs.drop bkOpenTag.length).dropWhile isPyWs with
    | '{' :: r2 => lazyCloseScan ['{'] r2
    | _ => none
  else none

/-- Anchored matcher for the fallback regex `\{[^{}]*"complete"[^{}]*\}`:
a brace-free region containing the quoted word "complete". -/
def completeBlockAt (cs : List Char) : Option (List Char) :=
  match cs with
  | '{' :: r =>
    let region := r.takeWhile (fun c => c != '{' && c != '}')
    match r.dropWhile (fun c => c != '{' && c != '}') with
    | '}' :: _ =>
      if containsSub (String.mk region) "\"complete\"" then
        some ('{' :: (region ++ ['}']))
      else none
    | _ => none
  | _ => none

/-- Python `re.search` for the block matchers: leftmost position first,
returning the match's start index and the group. -/
def searchBlock (pat : List Char → Option (List Char)) :
    Nat → List Char → Option (Nat × List Char)
  | i, [] => (pat []).map (fun g => (i, g))
  | i, c :: rest =>
    match pat (c :: rest) with
    | some g => some (i, g)
    | none => searchBlock pat (i + 1) rest

/-- `BookingAgent._parse_response`: split the raw model output into the
customer-facing reply and the parsed extraction dict (when the structured
block is present and well-formed). -/
def parseResponse (raw : String) : String × Option (List (String × JsonVal)) :=
  let cs := raw.toList
  match searchBlock bookingBlockAt 0 cs with
  | some (i, grp) =>
    let reply := pyStrip (String.mk (cs.take i))
    match jsonLoads (String.mk grp) with
    | some (.obj kvs) => (reply, some kvs)
    | _ => (reply, none)
  | none =>
    match searchBlock completeBlockAt 0 cs with
    | some (i, grp) =>
      match jsonLoads (String.mk grp) with
      | some (.obj kvs) => (pyStrip (String.mk (cs.take i)), some kvs)
      | _ => (pyStrip raw, none)
    | none => (pyStrip raw, none)

/-- The localized error replies of `BookingAgent.run`'s exception handler
(`error_msgs.get(language, english_default)`). -/
def bookingErrMsg (language : String) : String :=
  if language = "es" then "Algo falló por acá. ¿Puedes intentar de nuevo?"
  else if language = "pt" then "Algo deu errado aqui. Pode tentar de novo?"
  else "Something went wrong on my end. Can you try that again?"

/-- `BookingAgent.run` restricted to what it computes and returns:
`modelOut` is the outcome of `llm.invoke` (`Except.error ()` if the model
call raised); the result is (reply, is_complete as returned, the booking
fields after this turn).  The completion value is whatever JSON value the
model put under "complete" (`extracted.get("complete", False)`), defaulting
to false; a dict that is absent, malformed, or empty (Python falsiness of
`if extracted:`) yields false and no field updates. -/
def bookingRun (b : Booking) (modelOut : Except Unit String)
    (language : String) : String × JsonVal × Booking :=
  match modelOut with
  | .error _ => (bookingErrMsg language, .bool false, b)
  | .ok raw =>
    match parseResponse raw with
    | (reply, some kvs) =>
      if !kvs.isEmpty then
        (reply, (objGet kvs "complete").getD (.bool false), applyExtract b kvs)
      else
        (reply, .bool false, b)
    | (reply, none) => (reply, .bool false, b)

-- ───────────────────────── TechAgent (src/agents/tech_agent.py) ─────────────

/-- A `RetrievalMatch`: one Pinecone match with its metadata text and the
namespace tag `build_context` writes into the metadata. -/
structure PMatch where
  mid : String
  score : Rat
  text : String
  source_namespace : String
deriving DecidableEq

/-- Descending order on match scores, the key of
`all_matches.sort(key=lambda x: x["score"], reverse=True)`. -/
def scoreGe (a b : PMatch) : Prop := b.score ≤ a.score

instance : DecidableRel scoreGe :=
  fun a b => (inferInstance : Decidable (b.score ≤ a.score))

instance : IsTotal PMatch scoreGe := ⟨fun a b => le_total b.score a.score⟩

instance : IsTrans PMatch scoreGe := ⟨fun _ _ _ h1 h2 => le_trans h2 h1⟩

/-- Python's stable sort descending by score (both `list.sort(...,
reverse=True)` and `sorted(..., reverse=True)` in the source). -/
def sortDesc (l : List PMatch) : List PMatch := l.insertionSort scoreGe

/-- `RAG_TOP_K` from `src/config.py`. -/
def RAG_TOP_K : Nat := 15

/-- The gateway outcomes one call of `build_context`/`run` can observe.
`query q ns` is the embedding of query text `q` followed by
`index.query(vector, top_k=5, namespace=ns)` (the two are collapsed since the
vector is opaque; an error in either gateway call surfaces as `.error`).
`ctxLLM`/`genLLM`/`finalLLM` are the outcomes of the three chat-model calls
(query contextualization, query expansion, final answer synthesis). -/
structure TechEnv where
  query : String → String → Except Unit (List PMatch)
  ctxLLM : Except Unit String
  genLLM : Except Unit String
  finalLLM : Except Unit String

/-- `TechAgent.contextualize_query`: empty history short-circuits with no
model call; a failed rewrite falls back to the original utterance. -/
def contextualizeQuery (ctxLLM : Except Unit String) (history : List String)
    (latest : String) : String :=
  if history.isEmpty then latest
  else
    match ctxLLM with
    | .ok reformulated => reformulated
    | .error _ => latest

/-- `TechAgent.generate_search_queries`: split the model text on newlines,
strip, drop empties, keep at most 3; a failed call yields no variations. -/
def generateSearchQueries (genLLM : Except Unit String) : List String :=
  match genLLM with
  | .error _ => []
  | .ok response =>
    (((splitNL response).map pyStrip).filter (fun q => q ≠ "")).take 3

def recallKeywords : List String :=
  ["recall", "retiro", "llamado", "campaña de seguridad",
   "safety campaign", "open recall"]

/-- `TechAgent._is_recall_question`. -/
def isRecallQuestion (userMessage : String) : Bool :=
  recallKeywords.any (fun kw => containsSub (asciiLower userMessage) kw)

/-- Python truthiness of the `carfax_namespace` kwarg (`None` and the empty
string are falsy). -/
def carfaxTruthy : Option String → Bool
  | some c => c ≠ ""
  | none => false

/-- STEP 1 of `build_context`: the owner's-manual namespace always, plus the
Carfax namespace when it is truthy. -/
def namespacesToSearch (ns : String) (carfax : Option String) : List String :=
  match carfax with
  | some c => if c = "" then [ns] else [ns, c]
  | none => [ns]

/-- One multi-namespace search pass: for each namespace in order, embed and
query with `top_k=5` (hence the `take 5` — the gateway returns at most
`top_k` matches), tag each match's metadata with its source namespace, and
concatenate.  A gateway error on any namespace propagates (there is no
try/except around these calls in the source). -/
def fastGather (query : String → String → Except Unit (List PMatch))
    (sq : String) : List String → Except Unit (List PMatch)
  | [] => .ok []
  | ns :: rest =>
    match query sq ns with
    | .error e => .error e
    | .ok results =>
      match fastGather query sq rest with
      | .error e => .error e
      | .ok more =>
        .ok ((results.take 5).map (fun m => { m with source_namespace := ns })
              ++ more)

/-- The expansion search loops: the same per-namespace pass for every query
variation, concatenated in iteration order (query outer, namespace inner).
The source feeds each match into the dedup dict as it arrives; folding the
dedup step over this concatenated stream is the same computation. -/
def expGather (query : String → String → Except Unit (List PMatch))
    (queries nss : List String) : Except Unit (List PMatch) :=
  match queries with
  | [] => .ok []
  | q :: rest =>
    match fastGather query q nss with
    | .error e => .error e
    | .ok batch =>
      match expGather query rest nss with
      | .error e => .error e
      | .ok more => .ok (batch ++ more)

/-- Lookup in the `unique_matches` dict. -/
def lookupA (acc : List (String × PMatch)) (k : String) : Option PMatch :=
  match acc with
  | [] => none
  | (k', v) :: rest => if k' = k then some v else lookupA rest k

/-- Dict store `unique_matches[k] = v`: replaces in place if the key exists
(Python dicts keep the original insertion position), appends otherwise. -/
def updateA : List (String × PMatch) → String → PMatch → List (String × PMatch)
  | [], k, v => [(k, v)]
  | (k', v') :: rest, k, v =>
    if k' = k then (k, v) :: rest else (k', v') :: updateA rest k v

/-- The dedup body: keep the best score for each unique id
(`if match["id"] not in unique_matches or match["score"] > ...`). -/
def dedupStep (acc : List (String × PMatch)) (m : PMatch) :
    List (String × PMatch) :=
  match lookupA acc m.mid with
  | none => updateA acc m.mid m
  | some old => if old.score < m.score then updateA acc m.mid m else acc

/-- The `unique_matches` dict after processing the whole expansion stream. -/
def dedupFold (ms : List PMatch) : List (String × PMatch) :=
  ms.foldl dedupStep []

def keysA (acc : List (String × PMatch)) : List String := acc.map Prod.fst

def valsA (acc : List (String × PMatch)) : List PMatch := acc.map Prod.snd

/-- `final_matches`: deduplicated values sorted descending by score,
truncated to `RAG_TOP_K`. -/
def finalOf (ms : List PMatch) : List PMatch :=
  (sortDesc (valsA (dedupFold ms))).take RAG_TOP_K

/-- `all_matches[0]["score"] if all_matches else 0.0`. -/
def bestScore : List PMatch → Rat
  | [] => 0
  | m :: _ => m.score

/-- `"\n---\n".join(chunks)`. -/
def joinChunks (chunks : List String) : String :=
  String.intercalate "\n---\n" chunks

/-- The tail of `build_context` after the expansion search: the answerability
cutoff on `final_matches` (empty, or best score below 0.50), with the
recall-question special case selecting the NO_RECALL_FOUND sentinel, and
otherwise the joined chunk texts. -/
def answerFromFinal (isRecallQ : Bool) (carfax : Option String)
    (finalMatches : List PMatch) : Except Unit String :=
  match finalMatches with
  | [] =>
    if isRecallQ && carfaxTruthy carfax then .ok "NO_RECALL_FOUND"
    else .ok "NO_ANSWER_FOUND"
  | top :: rest =>
    if top.score < (1 / 2 : Rat) then
      if isRecallQ && carfaxTruthy carfax then .ok "NO_RECALL_FOUND"
      else .ok "NO_ANSWER_FOUND"
    else
      .ok (joinChunks ((top :: rest).map PMatch.text))

/-- `TechAgent.build_context`.  Returns `Except.error ()` when a gateway
query raised (those calls are not wrapped in try/except in the source, so the
exception leaves `build_context`).  The `namespace` kwarg default is
"civic-2025"; callers here always pass it explicitly. -/
def buildContext (env : TechEnv) (userMessage nsArg : String)
    (carfax : Option String) (history : List String) : Except Unit String :=
  match fastGather env.query (contextualizeQuery env.ctxLLM history userMessage)
      (namespacesToSearch nsArg carfax) with
  | .error e => .error e
  | .ok allMatches =>
    if bestScore (sortDesc allMatches) > (13 / 20 : Rat) then
      .ok (joinChunks (((sortDesc allMatches).take 5).map PMatch.text))
    else
      match expGather env.query
          (contextualizeQuery env.ctxLLM history userMessage
            :: generateSearchQueries env.genLLM)
          (namespacesToSearch nsArg carfax) with
      | .error e => .error e
      | .ok stream =>
        answerFromFinal
          (isRecallQuestion (contextualizeQuery env.ctxLLM history userMessage))
          carfax (finalOf stream)

/-- The generic reply of `TechAgent.run`'s exception handler. -/
def techErrReply : String :=
  "I encountered an error while processing your request. Please try again or contact service directly."

/-- The `no_recall_msgs.get(language, english)` replies of `TechAgent.run`. -/
def noRecallMsg (language : String) : String :=
  if language = "es" then
    "Buenas noticias — no veo ningún recall abierto para tu vehículo. Todo está al día. 👍[VISIT:NO]"
  else if language = "pt" then
    "Boas notícias — não vejo nenhum recall aberto para o seu veículo. Está tudo em dia. 👍[VISIT:NO]"
  else
    "Good news — I don't see any open recalls for your vehicle. You're all set. 👍[VISIT:NO]"

/-- `TechAgent.run`: the try/except spans `build_context` and the final model
call, so any exception from either becomes the generic error reply; the
NO_RECALL_FOUND sentinel is intercepted before the model call. -/
def techRun (env : TechEnv) (userMessage nsArg : String)
    (carfax : Option String) (history : List String) (language : String) :
    String :=
  match buildContext env userMessage nsArg carfax history with
  | .error _ => techErrReply
  | .ok context =>
    if context = "NO_RECALL_FOUND" then noRecallMsg language
    else
      match env.finalLLM with
      | .error _ => techErrReply
      | .ok response => response

/-- Semantics of one dedup-dict update for a fixed id: the per-id abstraction
of `dedupStep` (used to state and prove the max-score invariant). -/
def stepO (o : Option PMatch) (m : PMatch) : Option PMatch :=
  match o with
  | none => some m
  | some old => if old.score < m.score then some m else some old

-- ───────────────────────── Concrete instances used by witnesses ─────────────

/-- The decision the fast path produces for the bare message "civic". -/
def fcCivic : Decision :=
  ⟨"vehicle_select", some "civic-2025", .bool false, .str "Selected civic"⟩

/-- A gateway state whose single stored chunk scores 0.70 on every query. -/
def c1env : TechEnv :=
  { query := fun _ _ => .ok [⟨"m1", 7 / 10, "Tire pressure is 32 psi.", ""⟩]
    ctxLLM := .error (), genLLM := .error (), finalLLM := .ok "answer" }

/-- A gateway state with an empty index: every namespace query succeeds with
no matches, and the expansion model call fails (so no variations). -/
def c2env : TechEnv :=
  { query := fun _ _ => .ok []
    ctxLLM := .error (), genLLM := .error (), finalLLM := .ok "answer" }

/-- A gateway state where the Carfax namespace "cf" raises while the primary
namespace answers with a high-scoring match. -/
def c3env : TechEnv :=
  { query := fun _ ns =>
      if ns = "cf" then .error ()
      else .ok [⟨"m1", 9 / 10, "manual chunk", ""⟩]
    ctxLLM := .error (), genLLM := .error (), finalLLM := .ok "answer" }

/-- An expansion stream where id "a" is seen twice (scores 0.3 then 0.6) and
id "b" once. -/
def msC4 : List PMatch :=
  [⟨"a", 3 / 10, "t1", "n"⟩, ⟨"b", 9 / 10, "t2", "n"⟩, ⟨"a", 6 / 10, "t3", "n"⟩]

/-- A model output whose structured block asserts completion without filling
any field. -/
def c5raw : String :=
  "All set!\n[BOOKING_DATA]\n\x7b\"complete\": true\x7d\n[/BOOKING_DATA]"

/-- An extraction dict carrying a single usable field. -/
def kvsC6 : List (String × JsonVal) := [("name", .str "Ana")]

-- ═════════════════════════ Theorems ════════════════════════════════════════

-- Helper lemmas about the classifier paths.

theorem fastClassify_escalation_false {t : String} {d : Decision}
    (h : fastClassify t = some d) : d.escalation = .bool false := by
  simp only [fastClassify] at h
  repeat' split at h
  all_goals first
    | (injection h with h2; exact h2 ▸ rfl)
    | exact Option.noConfusion h

theorem fallbackClassify_escalation_false (t : String) :
    (fallbackClassify t).escalation = .bool false := by
  simp only [fallbackClassify]
  split <;> rfl

theorem validateObj_escalation {kvs : List (String × JsonVal)} {d : Decision}
    (h : validateObj kvs = some d) (he : d.escalation = .bool true) :
    d.intent = "escalation" := by
  simp only [validateObj] at h
  split at h
  · exact Option.noConfusion h
  · injection h with h2
    subst h2
    dsimp only at he ⊢
    rw [he]

/-- Every classification decision comes from one of the three paths of
`classify`: a fast-path hit, a validated slow-path dict, or the keyword
fallback. -/
theorem classify_cases (t : String) (s : Except Unit String) :
    fastClassify t = some (classify t s)
    ∨ (∃ kvs, validateObj kvs = some (classify t s))
    ∨ classify t s = fallbackClassify t := by
  simp only [classify]
  rcases hfc : fastClassify t with _ | d
  · rcases s with _ | raw
    · exact Or.inr (Or.inr rfl)
    · simp only [slowClassify]
      rcases hjl : jsonLoads (pyStrip (pyReplaceAll
          (pyReplaceAll (pyStrip raw) "```json" "") "```" "")) with _ | v
      · exact Or.inr (Or.inr rfl)
      · cases v with
        | obj kvs =>
          simp only [validatedOr]
          rcases hvo : validateObj kvs with _ | d2
          · exact Or.inr (Or.inr rfl)
          · exact Or.inr (Or.inl ⟨kvs, hvo⟩)
        | null => exact Or.inr (Or.inr rfl)
        | bool b => exact Or.inr (Or.inr rfl)
        | num q => exact Or.inr (Or.inr rfl)
        | str s2 => exact Or.inr (Or.inr rfl)
        | arr xs => exact Or.inr (Or.inr rfl)
  · exact Or.inl rfl

/-- Claim C8: for every classification decision produced by `classify` —
keyword fast path, model slow path, or keyword fallback — if the escalation
flag is true then the intent is "escalation", regardless of the intent the
model itself reported. -/
theorem c8_escalation_forces_intent (userText : String)
    (slowRaw : Except Unit String)
    (h : (classify userText slowRaw).escalation = JsonVal.bool true) :
    (classify userText slowRaw).intent = "escalation" := by
  rcases classify_cases userText slowRaw with hfc | ⟨kvs, hvo⟩ | hfb
  · rw [fastClassify_escalation_false hfc] at h
    exact absurd h (by simp)
  · exact validateObj_escalation hvo h
  · rw [hfb, fallbackClassify_escalation_false] at h
    exact absurd h (by simp)

/-- Witness for C8 at a concrete slow-path response whose model-reported
intent is "tech" but whose escalation flag is true. -/
theorem c8_witness :
    (classify "ugh"
      (Except.ok "\x7b\"intent\": \"tech\", \"escalation\": true\x7d")).intent
      = "escalation" :=
  c8_escalation_forces_intent "ugh"
    (Except.ok "\x7b\"intent\": \"tech\", \"escalation\": true\x7d") rfl

/-- Claim C10 (implicit): every decision produced by the keyword fast path or
the keyword fallback has escalation = false — and a fast-path hit is returned
by `classify` unchanged, whatever the model gateway would have said — so
escalation can only be set on the model slow path. -/
theorem c10_fast_paths_never_escalate (t : String)
    (slowRaw : Except Unit String) (d : Decision) :
    (fastClassify t = some d →
      d.escalation = JsonVal.bool false ∧ classify t slowRaw = d)
    ∧ (fallbackClassify t).escalation = JsonVal.bool false := by
  constructor
  · intro h
    refine ⟨fastClassify_escalation_false h, ?_⟩
    unfold classify
    rw [h]
  · exact fallbackClassify_escalation_false t

/-- Witness for C10: the fast path fires on the bare vehicle name "civic"
(with the model gateway in a failing state, which must not matter). -/
theorem c10_witness :
    fcCivic.escalation = JsonVal.bool false
    ∧ classify "civic" (Except.error ()) = fcCivic :=
  (c10_fast_paths_never_escalate "civic" (Except.error ()) fcCivic).1 rfl

-- Helper lemmas about the phone-extraction regex phase.

theorem tryPhonePattern_spec {pat : Option Char → List Char → Option (List Char)}
    {text : String} {ds : List Char}
    (h : tryPhonePattern pat text = some ds) :
    ds.length = 10 ∧ ∀ c ∈ ds, c.isDigit = true := by
  simp only [tryPhonePattern] at h
  split at h
  · split at h
    · injection h with h2
      subst h2
      rename_i hlen
      exact ⟨hlen, fun c hc => (List.mem_filter.mp hc).2⟩
    · exact Option.noConfusion h
  · exact Option.noConfusion h

theorem phoneRegexPhase_spec {text : String} {ds : List Char}
    (h : phoneRegexPhase text = some ds) :
    ds.length = 10 ∧ ∀ c ∈ ds, c.isDigit = true := by
  simp only [phoneRegexPhase] at h
  split at h
  · rename_i heq
    injection h with h2
    subst h2
    exact tryPhonePattern_spec heq
  · split at h
    · rename_i heq
      injection h with h2
      subst h2
      exact tryPhonePattern_spec heq
    · exact tryPhonePattern_spec h

theorem isPhoneShape_formatPhone {ds : List Char} (hlen : ds.length = 10)
    (hdig : ∀ c ∈ ds, c.isDigit = true) :
    isPhoneShape (formatPhone ds) = true := by
  rcases ds with _ | ⟨a, _ | ⟨b, _ | ⟨c, _ | ⟨d, _ | ⟨e, _ | ⟨f, _ | ⟨g, _ |
    ⟨h2, _ | ⟨i, _ | ⟨j, _ | ⟨k, rest⟩⟩⟩⟩⟩⟩⟩⟩⟩⟩⟩ <;>
    simp_all [formatPhone, isPhoneShape, String.toList]

/-- Claim C9 counterexample: with no regex match, `extract_phone` hands back
the model's text as-is; a misbehaving model therefore yields a non-null
result that is not in the normalised `(XXX) XXX-XXXX` shape, contradicting
"its result is either a string normalized exactly to the format
(XXX) XXX-XXXX or null — no other shape is ever returned". -/
theorem c9_counterexample :
    extractPhone "please call my office" (Except.ok "Sure thing!")
      = some "Sure thing!"
    ∧ isPhoneShape "Sure thing!" = false := by
  constructor <;> rfl

/-- Claim C9 (amended): `extract_phone` is regex-first — when some US-format
regex yields a 10-digit match the result is the normalised
`(XXX) XXX-XXXX` string and the model is never consulted (the result is the
same for every model outcome); only when no regex matches does it fall back
to the model call, returning null on a model failure or a NO_PHONE answer
and otherwise the model's stripped text, which is not validated against the
normalised shape. -/
theorem c9_amended_regex_first (text : String) (llm : Except Unit String) :
    (∀ ds, phoneRegexPhase text = some ds →
      extractPhone text llm = some (formatPhone ds)
        ∧ isPhoneShape (formatPhone ds) = true)
    ∧ (phoneRegexPhase text = none →
      extractPhone text llm
        = (match llm with
           | .error _ => none
           | .ok r =>
             if containsSub (pyStrip r) "NO_PHONE" then none
             else some (pyStrip r))) := by
  constructor
  · intro ds hds
    obtain ⟨hlen, hdig⟩ := phoneRegexPhase_spec hds
    refine ⟨?_, isPhoneShape_formatPhone hlen hdig⟩
    simp only [extractPhone, hds]
  · intro hn
    simp only [extractPhone, hn]

/-- Witness for the amended C9 on a concrete dashed phone number (the model
gateway answer is deliberately garbage to show it is not consulted). -/
theorem c9_witness :
    extractPhone "call 954-243-1238" (Except.ok "garbage")
      = some "(954) 243-1238"
    ∧ isPhoneShape "(954) 243-1238" = true :=
  (c9_amended_regex_first "call 954-243-1238" (Except.ok "garbage")).1
    ['9', '5', '4', '2', '4', '3', '1', '2', '3', '8'] rfl

-- Helper lemmas about the booking field merge.

theorem keepField_changed {cur newv : Option JsonVal}
    (h : keepField cur newv ≠ cur) :
    ∃ v, newv = some v ∧ v ≠ JsonVal.null ∧ v ≠ JsonVal.str "null" := by
  cases newv with
  | none => simp [keepField] at h
  | some v =>
    refine ⟨v, rfl, ?_, ?_⟩
    · rintro rfl
      simp [keepField, truthy] at h
    · rintro rfl
      simp [keepField, truthy, isNullLiteral] at h

theorem keepField_some_null (cur : Option JsonVal) :
    keepField cur (some JsonVal.null) = cur := by
  simp [keepField, truthy]

/-- Claim C6: a booking field is overwritten only when the extracted value
for it is non-null and not the literal "null" placeholder; in particular an
extraction whose six fields are all JSON null leaves the record unchanged
(merge with an all-null extraction is the identity). -/
theorem c6_merge_only_nonnull (b : Booking) (kvs : List (String × JsonVal)) :
    (∀ f : BField, bget (applyExtract b kvs) f ≠ bget b f →
      ∃ v, objGet kvs (keyOf f) = some v
        ∧ v ≠ JsonVal.null ∧ v ≠ JsonVal.str "null")
    ∧ ((∀ f : BField, objGet kvs (keyOf f) = some JsonVal.null) →
      applyExtract b kvs = b) := by
  constructor
  · intro f h
    cases f <;> exact keepField_changed h
  · intro hall
    have hn := hall .name
    have hp := hall .phone
    have hv := hall .vehicle
    have hs := hall .service_type
    have hd := hall .preferred_date
    have ht := hall .preferred_time
    simp only [keyOf] at hn hp hv hs hd ht
    cases b
    simp [applyExtract, hn, hp, hv, hs, hd, ht, keepField_some_null]

/-- Witness for C6: a one-field extraction changes only that field and
satisfies the overwrite condition; the all-null property is exercised with
the identity consequence on a partially filled record. -/
theorem c6_witness :
    (∃ v, objGet kvsC6 (keyOf BField.name) = some v
      ∧ v ≠ JsonVal.null ∧ v ≠ JsonVal.str "null")
    ∧ applyExtract ⟨some (.str "Bob"), none, none, none, none, none⟩
        [("name", JsonVal.null), ("phone", JsonVal.null),
         ("vehicle", JsonVal.null), ("service_type", JsonVal.null),
         ("preferred_date", JsonVal.null), ("preferred_time", JsonVal.null)]
        = ⟨some (.str "Bob"), none, none, none, none, none⟩ :=
  ⟨(c6_merge_only_nonnull emptyBooking kvsC6).1 BField.name
      (fun hc => Option.noConfusion hc),
   (c6_merge_only_nonnull ⟨some (.str "Bob"), none, none, none, none, none⟩
      [("name", JsonVal.null), ("phone", JsonVal.null),
       ("vehicle", JsonVal.null), ("service_type", JsonVal.null),
       ("preferred_date", JsonVal.null), ("preferred_time", JsonVal.null)]).2
      (fun f => by cases f <;> rfl)⟩

/-- Claim C7: on a failed model call, or on a turn whose structured block is
absent or malformed (no extraction dict), the booking turn returns the
localized error reply (resp. the reply split off the raw model text) with
completion false, and none of the six booking fields changes. -/
theorem c7_failed_turn_leaves_record (b : Booking) (language : String)
    (modelOut : Except Unit String) :
    (modelOut = Except.error () →
      bookingRun b modelOut language
        = (bookingErrMsg language, JsonVal.bool false, b))
    ∧ (∀ raw, modelOut = Except.ok raw → (parseResponse raw).2 = none →
      bookingRun b modelOut language
        = ((parseResponse raw).1, JsonVal.bool false, b)) := by
  constructor
  · rintro rfl
    rfl
  · rintro raw rfl hp
    rcases hsplit : parseResponse raw with ⟨rep, ext⟩
    rw [hsplit] at hp
    simp only at hp
    subst hp
    simp only [bookingRun, hsplit]

/-- Witness for C7: a model reply with no structured block at all. -/
theorem c7_witness :
    bookingRun emptyBooking (Except.ok "Hi! What can I do for you?") "en"
      = ("Hi! What can I do for you?", JsonVal.bool false, emptyBooking) :=
  (c7_failed_turn_leaves_record emptyBooking "en"
      (Except.ok "Hi! What can I do for you?")).2
    "Hi! What can I do for you?" rfl rfl

/-- Claim C5 is violated by the code (code_bug): the extractor trusts the
model's completion flag instead of recomputing it from the six fields.  On a
turn whose structured block asserts `complete: true` while every field is
still null, `BookingAgent.run` returns completion = true even though e.g.
the name field of the record is still null after the merge — the spec's
invariant "completion flag is true iff all six required fields are non-null"
does not hold. -/
theorem c5_completion_flag_not_recomputed :
    bookingRun emptyBooking (Except.ok c5raw) "en"
      = ("All set!", JsonVal.bool true, emptyBooking)
    ∧ emptyBooking.name = none := by
  constructor <;> rfl

-- Helper lemmas about the retrieval fast path.

theorem fastGather_congr {q1 q2 : String → String → Except Unit (List PMatch)}
    (sq : String) (h : ∀ ns, q1 sq ns = q2 sq ns) :
    ∀ nss, fastGather q1 sq nss = fastGather q2 sq nss := by
  intro nss
  induction nss with
  | nil => rfl
  | cons ns rest ih => simp only [fastGather, h ns, ih]

/-- Claim C1: if the best score among the merged fast-path matches (top-5
per searched namespace, merged and sorted descending) strictly exceeds 0.65,
`build_context` returns the joined texts of the top-5 merged chunks, and the
expansion path is never invoked — the result does not depend on the
expansion model call or on any gateway response other than the fast-path
queries themselves. -/
theorem c1_fast_path (env : TechEnv) (msg nsA : String)
    (carfax : Option String) (history : List String) (l : List PMatch)
    (hfast : fastGather env.query (contextualizeQuery env.ctxLLM history msg)
      (namespacesToSearch nsA carfax) = Except.ok l)
    (hscore : bestScore (sortDesc l) > (13 / 20 : Rat)) :
    buildContext env msg nsA carfax history
      = Except.ok (joinChunks (((sortDesc l).take 5).map PMatch.text))
    ∧ ∀ env2 : TechEnv, env2.ctxLLM = env.ctxLLM →
      (∀ nsp, env2.query (contextualizeQuery env.ctxLLM history msg) nsp
        = env.query (contextualizeQuery env.ctxLLM history msg) nsp) →
      buildContext env2 msg nsA carfax history
        = buildContext env msg nsA carfax history := by
  have hmain : buildContext env msg nsA carfax history
      = Except.ok (joinChunks (((sortDesc l).take 5).map PMatch.text)) := by
    simp only [buildContext, hfast]
    rw [if_pos hscore]
  refine ⟨hmain, ?_⟩
  intro env2 hctx hq
  have hg : fastGather env2.query (contextualizeQuery env.ctxLLM history msg)
      (namespacesToSearch nsA carfax)
      = fastGather env.query (contextualizeQuery env.ctxLLM history msg)
      (namespacesToSearch nsA carfax) :=
    fastGather_congr _ hq _
  simp only [buildContext, hctx, hg, hfast]
  rw [if_pos hscore, if_pos hscore]

/-- Witness for C1: a single always-available chunk scoring 0.70. -/
theorem c1_witness :
    buildContext c1env "what is the tire pressure" "civic-2025" none []
      = Except.ok "Tire pressure is 32 psi." :=
  (c1_fast_path c1env "what is the tire pressure" "civic-2025" none []
    [⟨"m1", 7 / 10, "Tire pressure is 32 psi.", "civic-2025"⟩]
    rfl (by norm_num [bestScore, sortDesc, List.insertionSort])).1

theorem answerFromFinal_weak (isRecallQ : Bool) (carfax : Option String)
    (fm : List PMatch) (h : fm = [] ∨ bestScore fm < (1 / 2 : Rat)) :
    answerFromFinal isRecallQ carfax fm
      = Except.ok (if isRecallQ && carfaxTruthy carfax
          then "NO_RECALL_FOUND" else "NO_ANSWER_FOUND") := by
  rcases fm with _ | ⟨top, rest⟩
  · simp only [answerFromFinal]
    cases hc : (isRecallQ && carfaxTruthy carfax) <;> simp [hc]
  · have hsc : top.score < (1 / 2 : Rat) := by
      rcases h with he | hl
      · exact absurd he (List.cons_ne_nil _ _)
      · simpa [bestScore] using hl
    simp only [answerFromFinal]
    rw [if_pos hsc]
    cases hc : (isRecallQ && carfaxTruthy carfax) <;> simp [hc]

/-- Claim C2 counterexample: a retrieval call that reaches the expansion
path and finds nothing, but whose (contextualized) query is a recall
question with a Carfax namespace supplied, returns the NO_RECALL_FOUND
sentinel — a different sentinel than NO_ANSWER_FOUND, contradicting "the
result of build_context is exactly the NO_ANSWER sentinel string — never …
a different sentinel". -/
theorem c2_counterexample :
    buildContext c2env "is there a recall on my car" "civic-2025"
      (some "cf") [] = Except.ok "NO_RECALL_FOUND"
    ∧ "NO_RECALL_FOUND" ≠ "NO_ANSWER_FOUND" := by
  constructor
  · with_unfolding_all rfl
  · decide

/-- Claim C2 (amended): on the expansion path with all gateway queries
succeeding, if no matches survive deduplication or the best surviving score
is below 0.50, `build_context` returns the NO_RECALL_FOUND sentinel when the
contextualized query is a recall question and a Carfax namespace is
supplied, and the NO_ANSWER_FOUND sentinel otherwise — never an empty
string, and never an exception. -/
theorem c2_amended_no_answer (env : TechEnv) (msg nsA : String)
    (carfax : Option String) (history : List String) (l stream : List PMatch)
    (hfast : fastGather env.query (contextualizeQuery env.ctxLLM history msg)
      (namespacesToSearch nsA carfax) = Except.ok l)
    (hlow : ¬ bestScore (sortDesc l) > (13 / 20 : Rat))
    (hexp : expGather env.query
      (contextualizeQuery env.ctxLLM history msg
        :: generateSearchQueries env.genLLM)
      (namespacesToSearch nsA carfax) = Except.ok stream)
    (hweak : finalOf stream = [] ∨ bestScore (finalOf stream) < (1 / 2 : Rat)) :
    buildContext env msg nsA carfax history
      = Except.ok (if isRecallQuestion (contextualizeQuery env.ctxLLM history msg)
            && carfaxTruthy carfax
          then "NO_RECALL_FOUND" else "NO_ANSWER_FOUND")
    ∧ "NO_RECALL_FOUND" ≠ "" ∧ "NO_ANSWER_FOUND" ≠ "" := by
  refine ⟨?_, by decide, by decide⟩
  simp only [buildContext, hfast]
  rw [if_neg hlow]
  simp only [hexp]
  exact answerFromFinal_weak _ _ _ hweak

/-- Witness for the amended C2: empty index, recall question, Carfax
namespace present. -/
theorem c2_witness :
    buildContext c2env "is there a recall on my car" "civic-2025"
      (some "cf") [] = Except.ok "NO_RECALL_FOUND" :=
  ((c2_amended_no_answer c2env "is there a recall on my car" "civic-2025"
      (some "cf") [] [] [] rfl (by norm_num [bestScore, sortDesc,
        List.insertionSort]) rfl (Or.inl rfl)).1).trans rfl

/-- Claim C3 counterexample: a gateway failure on one namespace (the Carfax
partition) IS fatal to `build_context` — the exception propagates even
though the primary namespace answered with a 0.9-scoring match — and the
retrieval result is the generic error reply of `run`, not the NO_ANSWER
sentinel. -/
theorem c3_counterexample :
    buildContext c3env "how do I reset the oil light" "civic-2025"
      (some "cf") [] = Except.error ()
    ∧ techRun c3env "how do I reset the oil light" "civic-2025"
      (some "cf") [] "en" = techErrReply
    ∧ techErrReply ≠ "NO_ANSWER_FOUND" := by
  refine ⟨rfl, rfl, by decide⟩

/-- Claim C3 (amended): a gateway failure on any searched namespace
propagates out of `build_context` as an exception rather than degrading to
NO_ANSWER; `run` catches every such exception and returns the fixed
localized error reply, so the caller of `run` always receives a string. -/
theorem c3_amended_run_catches (env : TechEnv) (msg nsA : String)
    (carfax : Option String) (history : List String) (language : String)
    (h : buildContext env msg nsA carfax history = Except.error ()) :
    techRun env msg nsA carfax history language = techErrReply := by
  unfold techRun
  rw [h]

/-- Witness for the amended C3 at the same failing gateway state. -/
theorem c3_witness :
    techRun c3env "how do I reset the oil light" "civic-2025" (some "cf")
      [] "es" = techErrReply :=
  c3_amended_run_catches c3env "how do I reset the oil light" "civic-2025"
    (some "cf") [] "es" rfl

-- Helper lemmas about the dedup dict of the expansion path.

theorem lookupA_updateA (acc : List (String × PMatch)) (k : String)
    (v : PMatch) (k' : String) :
    lookupA (updateA acc k v) k'
      = if k' = k then some v else lookupA acc k' := by
  induction acc with
  | nil =>
    by_cases h : k' = k
    · subst h; simp [updateA, lookupA]
    · simp [updateA, lookupA, h, Ne.symm h]
  | cons p rest ih =>
    obtain ⟨a, b⟩ := p
    by_cases hak : a = k
    · subst hak
      by_cases hk : a = k'
      · subst hk; simp [updateA, lookupA]
      · simp [updateA, lookupA, hk, Ne.symm hk]
    · by_cases hk : a = k'
      · subst hk
        simp [updateA, lookupA, hak, Ne.symm hak]
      · simp [updateA, lookupA, hak, hk, ih]

theorem lookupA_eq_none_iff (acc : List (String × PMatch)) (k : String) :
    lookupA acc k = none ↔ k ∉ keysA acc := by
  induction acc with
  | nil => simp [lookupA, keysA]
  | cons p rest ih =>
    obtain ⟨a, b⟩ := p
    by_cases h : a = k
    · subst h; simp [lookupA, keysA]
    · simp [lookupA, keysA, h, ih, Ne.symm h]

theorem lookupA_dedupStep (acc : List (String × PMatch)) (m : PMatch)
    (k : String) :
    lookupA (dedupStep acc m) k
      = if k = m.mid then stepO (lookupA acc m.mid) m else lookupA acc k := by
  unfold dedupStep
  rcases hl : lookupA acc m.mid with _ | old
  · rw [lookupA_updateA]
    by_cases h : k = m.mid
    · subst h; simp [stepO, hl]
    · simp [h]
  · dsimp only
    split
    case isTrue hlt =>
      rw [lookupA_updateA]
      by_cases h : k = m.mid
      · subst h; simp [stepO, hl, hlt]
      · simp [h]
    case isFalse hnl =>
      by_cases h : k = m.mid
      · subst h; simp [stepO, hl, hnl]
      · simp [h]

theorem lookupA_foldl_dedupStep (ms : List PMatch)
    (acc : List (String × PMatch)) (k : String) :
    lookupA (ms.foldl dedupStep acc) k
      = (ms.filter (fun m => m.mid = k)).foldl stepO (lookupA acc k) := by
  induction ms generalizing acc with
  | nil => rfl
  | cons m ms ih =>
    simp only [List.foldl_cons, List.filter_cons]
    rw [ih, lookupA_dedupStep]
    by_cases h : m.mid = k
    · subst h
      simp [List.foldl_cons]
    · simp [List.foldl_cons, h, Ne.symm h]

theorem foldl_stepO_some (l : List PMatch) (v0 : PMatch) :
    ∃ v, l.foldl stepO (some v0) = some v ∧ (v = v0 ∨ v ∈ l)
      ∧ v0.score ≤ v.score ∧ ∀ m ∈ l, m.score ≤ v.score := by
  induction l generalizing v0 with
  | nil => exact ⟨v0, rfl, Or.inl rfl, le_refl _, by simp⟩
  | cons m l ih =>
    simp only [List.foldl_cons]
    by_cases h : v0.score < m.score
    · have hstep : stepO (some v0) m = some m := by simp [stepO, h]
      rw [hstep]
      obtain ⟨v, hv, hmem, hge, hub⟩ := ih m
      refine ⟨v, hv, ?_, le_trans (le_of_lt h) hge, ?_⟩
      · rcases hmem with rfl | hm
        · exact Or.inr (List.mem_cons_self _ _)
        · exact Or.inr (List.mem_cons_of_mem _ hm)
      · intro x hx
        rcases List.mem_cons.mp hx with rfl | hxl
        · exact hge
        · exact hub x hxl
    · have hstep : stepO (some v0) m = some v0 := by simp [stepO, h]
      rw [hstep]
      obtain ⟨v, hv, hmem, hge, hub⟩ := ih v0
      refine ⟨v, hv, ?_, hge, ?_⟩
      · rcases hmem with rfl | hm
        · exact Or.inl rfl
        · exact Or.inr (List.mem_cons_of_mem _ hm)
      · intro x hx
        rcases List.mem_cons.mp hx with rfl | hxl
        · exact le_trans (le_of_not_lt h) hge
        · exact hub x hxl

theorem foldl_stepO_none (l : List PMatch) (hne : l ≠ []) :
    ∃ v, l.foldl stepO none = some v ∧ v ∈ l
      ∧ ∀ m ∈ l, m.score ≤ v.score := by
  rcases l with _ | ⟨m, l⟩
  · exact absurd rfl hne
  · simp only [List.foldl_cons]
    have hstep : stepO none m = some m := rfl
    rw [hstep]
    obtain ⟨v, hv, hmem, hge, hub⟩ := foldl_stepO_some l m
    refine ⟨v, hv, ?_, ?_⟩
    · rcases hmem with rfl | hm
      · exact List.mem_cons_self _ _
      · exact List.mem_cons_of_mem _ hm
    · intro x hx
      rcases List.mem_cons.mp hx with rfl | hxl
      · exact hge
      · exact hub x hxl

theorem keysA_updateA_of_mem (acc : List (String × PMatch)) (k : String)
    (v : PMatch) (h : k ∈ keysA acc) : keysA (updateA acc k v) = keysA acc := by
  induction acc with
  | nil => simp [keysA] at h
  | cons p rest ih =>
    obtain ⟨a, b⟩ := p
    by_cases hak : a = k
    · subst hak; simp [updateA, keysA]
    · have h' : k ∈ keysA rest := by
        rcases List.mem_cons.mp h with h1 | h1
        · exact absurd h1.symm hak
        · exact h1
      have ih' := ih h'
      simp only [keysA] at ih'
      simp [updateA, keysA, hak, ih']

theorem keysA_updateA_of_not_mem (acc : List (String × PMatch)) (k : String)
    (v : PMatch) (h : k ∉ keysA acc) :
    keysA (updateA acc k v) = keysA acc ++ [k] := by
  induction acc with
  | nil => simp [updateA, keysA]
  | cons p rest ih =>
    obtain ⟨a, b⟩ := p
    have hak : a ≠ k := fun hh => h (by subst hh; exact List.mem_cons_self _ _)
    have h' : k ∉ keysA rest := fun hh => h (List.mem_cons_of_mem _ hh)
    have ih' := ih h'
    simp only [keysA] at ih'
    simp [updateA, keysA, hak, ih']

theorem keysA_dedupStep (acc : List (String × PMatch)) (m : PMatch) :
    keysA (dedupStep acc m)
      = if m.mid ∈ keysA acc then keysA acc else keysA acc ++ [m.mid] := by
  unfold dedupStep
  rcases hl : lookupA acc m.mid with _ | old
  · have hnm : m.mid ∉ keysA acc := (lookupA_eq_none_iff acc m.mid).mp hl
    simp [keysA_updateA_of_not_mem _ _ _ hnm, hnm]
  · have hm : m.mid ∈ keysA acc := by
      by_contra hc
      have h0 := (lookupA_eq_none_iff acc m.mid).mpr hc
      rw [h0] at hl
      exact Option.noConfusion hl
    dsimp only
    split
    · simp [keysA_updateA_of_mem _ _ _ hm, hm]
    · simp [hm]

theorem keysA_dedupStep_nodup {acc : List (String × PMatch)} (m : PMatch)
    (h : (keysA acc).Nodup) : (keysA (dedupStep acc m)).Nodup := by
  rw [keysA_dedupStep]
  split
  · exact h
  · rename_i hnm
    simp [List.nodup_append, h, hnm]

theorem keysA_foldl_nodup (ms : List PMatch) (acc : List (String × PMatch))
    (h : (keysA acc).Nodup) : (keysA (ms.foldl dedupStep acc)).Nodup := by
  induction ms generalizing acc with
  | nil => exact h
  | cons m ms ih => exact ih _ (keysA_dedupStep_nodup m h)

theorem mem_keysA_foldl (ms : List PMatch) (acc : List (String × PMatch))
    (k : String) :
    k ∈ keysA (ms.foldl dedupStep acc)
      ↔ k ∈ keysA acc ∨ k ∈ ms.map PMatch.mid := by
  induction ms generalizing acc with
  | nil => simp
  | cons m ms ih =>
    simp only [List.foldl_cons, List.map_cons, List.mem_cons]
    rw [ih, keysA_dedupStep]
    split
    · rename_i hm
      constructor
      · rintro (h1 | h1)
        · exact Or.inl h1
        · exact Or.inr (Or.inr h1)
      · rintro (h1 | h1 | h1)
        · exact Or.inl h1
        · exact Or.inl (h1 ▸ hm)
        · exact Or.inr h1
    · simp only [List.mem_append, List.mem_singleton]
      constructor
      · rintro ((h1 | h1) | h1)
        · exact Or.inl h1
        · exact Or.inr (Or.inl h1)
        · exact Or.inr (Or.inr h1)
      · rintro (h1 | h1 | h1)
        · exact Or.inl (Or.inl h1)
        · exact Or.inl (Or.inr h1)
        · exact Or.inr h1

/-- Claim C4: on the expansion path, for any id observed among the gathered
matches, exactly one entry with that id survives deduplication, the retained
match is one of the observed ones with that id, and its score is an upper
bound of (hence the maximum of) all observed scores for that id; the final
result is sorted descending by score, has at most RAG_TOP_K = 15 elements,
and consists only of retained (deduplicated) matches. -/
theorem c4_dedup_invariant (ms : List PMatch) (k : String)
    (hk : k ∈ ms.map PMatch.mid) :
    ((keysA (dedupFold ms)).count k = 1
      ∧ ∃ v, lookupA (dedupFold ms) k = some v ∧ v ∈ ms ∧ v.mid = k
          ∧ ∀ m ∈ ms, m.mid = k → m.score ≤ v.score)
    ∧ List.Sorted scoreGe (finalOf ms)
    ∧ (finalOf ms).length ≤ RAG_TOP_K
    ∧ ∀ x ∈ finalOf ms, x ∈ valsA (dedupFold ms) := by
  refine ⟨⟨?_, ?_⟩, ?_, ?_, ?_⟩
  · have hnd : (keysA (dedupFold ms)).Nodup :=
      keysA_foldl_nodup ms [] (by simp [keysA])
    have hmem : k ∈ keysA (dedupFold ms) :=
      (mem_keysA_foldl ms [] k).mpr (Or.inr hk)
    exact List.count_eq_one_of_mem hnd hmem
  · have heq : lookupA (dedupFold ms) k
        = (ms.filter (fun m => m.mid = k)).foldl stepO none :=
      lookupA_foldl_dedupStep ms [] k
    have hne : ms.filter (fun m => m.mid = k) ≠ [] := by
      obtain ⟨m, hm, hmk⟩ := List.mem_map.mp hk
      intro hc
      have hmf : m ∈ ms.filter (fun m => m.mid = k) :=
        List.mem_filter.mpr ⟨hm, by simp [hmk]⟩
      rw [hc] at hmf
      exact List.not_mem_nil _ hmf
    obtain ⟨v, hv, hvmem, hub⟩ := foldl_stepO_none _ hne
    refine ⟨v, by rw [heq, hv], (List.mem_filter.mp hvmem).1, ?_, ?_⟩
    · exact of_decide_eq_true (List.mem_filter.mp hvmem).2
    · intro m hm hmk
      exact hub m (List.mem_filter.mpr ⟨hm, by simp [hmk]⟩)
  · exact List.Pairwise.sublist (List.take_sublist _ _)
      (List.sorted_insertionSort scoreGe (valsA (dedupFold ms)))
  · simp [finalOf]
  · intro x hx
    have hx2 : x ∈ sortDesc (valsA (dedupFold ms)) :=
      (List.take_sublist _ _).subset hx
    exact (List.perm_insertionSort scoreGe _).subset hx2

/-- Witness for C4 on a concrete stream where id "a" is observed twice. -/
theorem c4_witness :
    ((keysA (dedupFold msC4)).count "a" = 1
      ∧ ∃ v, lookupA (dedupFold msC4) "a" = some v ∧ v ∈ msC4 ∧ v.mid = "a"
          ∧ ∀ m ∈ msC4, m.mid = "a" → m.score ≤ v.score)
    ∧ List.Sorted scoreGe (finalOf msC4)
    ∧ (finalOf msC4).length ≤ RAG_TOP_K
    ∧ ∀ x ∈ finalOf msC4, x ∈ valsA (dedupFold msC4) :=
  c4_dedup_invariant msC4 "a" (by simp [msC4])
